import Mathlib

/-!
# Verification of the fhir-pipeline harmonization engine

A shallow embedding, in Lean 4, of the harmonization engine of the
`fhir-pipeline` repository: the CSV parser (`src/harmonization/csv-parser.ts`),
the HL7v2 parser (`src/harmonization/hl7v2-parser.ts`), the FHIR mapper and
bundle builder (`src/harmonization/fhir-mapper.ts`), and the dispatcher's
response accounting (`src/harmonization/index.ts`).

Strings are modelled by Lean `String` (a list of characters); the JavaScript
string operations used by the code (`split`, `trim`, `toLowerCase`,
`toUpperCase`, `startsWith`, truthiness, `x || y`) are embedded as total
functions below.  Case conversion is modelled on ASCII (the code only compares
against ASCII keywords).  `Date.now()` / `new Date()` are modelled by explicit
clock parameters, and `uuidv4()` by an explicit supply of fresh tokens, so the
functions stay pure.
-/

namespace FhirPipeline

/-! ## JavaScript string primitives -/

/-- ASCII model of JavaScript `String.prototype.toLowerCase`, per character. -/
def charToLower (c : Char) : Char :=
  if 'A' ≤ c ∧ c ≤ 'Z' then Char.ofNat (c.toNat + 32) else c

/-- ASCII model of JavaScript `String.prototype.toUpperCase`, per character. -/
def charToUpper (c : Char) : Char :=
  if 'a' ≤ c ∧ c ≤ 'z' then Char.ofNat (c.toNat - 32) else c

/-- Whitespace characters recognized by `trim` (ASCII model). -/
def isWs (c : Char) : Bool := c = ' ' ∨ c = '\t' ∨ c = '\n' ∨ c = '\r'

/-- Drop leading and trailing whitespace from a character list. -/
def trimChars (l : List Char) : List Char :=
  ((l.dropWhile isWs).reverse.dropWhile isWs).reverse

/-- JavaScript `s.toLowerCase()`. -/
def jsToLower (s : String) : String := ⟨s.data.map charToLower⟩

/-- JavaScript `s.toUpperCase()`. -/
def jsToUpper (s : String) : String := ⟨s.data.map charToUpper⟩

/-- JavaScript `s.trim()`. -/
def jsTrim (s : String) : String := ⟨trimChars s.data⟩

/-- JavaScript `x || y` on strings (`''` is the only falsy string). -/
def jsOr (x y : String) : String := if x.isEmpty then y else x

/-- JavaScript `x || undefined` on a string: `''` becomes `undefined`. -/
def jsOrUndef (x : String) : Option String := if x.isEmpty then none else some x

/-- Truthiness of a possibly-`undefined` string (`undefined` and `''` are falsy). -/
def truthy : Option String → Bool
  | none => false
  | some s => !s.isEmpty

/-- JavaScript `s.split(sep)` for a one-character separator: total, structural,
    always returns a nonempty list. -/
def splitOnChar (sep : Char) : List Char → List (List Char)
  | [] => [[]]
  | c :: cs =>
    match splitOnChar sep cs with
    | [] => [[]]
    | g :: gs => if c = sep then [] :: g :: gs else (c :: g) :: gs

/-- JavaScript `s.split(sep)` at the `String` level. -/
def jsSplit (sep : Char) (s : String) : List String :=
  (splitOnChar sep s.data).map String.mk

/-- JavaScript `s.startsWith(p)`. -/
def jsStartsWith (s p : String) : Bool := p.data.isPrefixOf s.data

/-- `lines.join('\n')`. -/
def joinSep (sep : Char) : List (List Char) → List Char
  | [] => []
  | [g] => g
  | g :: gs => g ++ sep :: joinSep sep gs

/-- `lines.join('\n')` at the `String` level. -/
def jsJoin (sep : Char) (ls : List String) : String :=
  ⟨joinSep sep (ls.map String.data)⟩

/-! ## JavaScript numeric-string recognition

Both parsers decide "store as number" by `!isNaN(Number(raw))`.  The functions
below embed the `StringNumericLiteral` grammar that `Number()` accepts: the
trimmed string is empty (value 0), a signed decimal literal or `Infinity`, or
an unsigned radix literal (`0x…`, `0o…`, `0b…`). -/

def isDig (c : Char) : Bool := '0' ≤ c ∧ c ≤ '9'

def isHexDig (c : Char) : Bool :=
  ('0' ≤ c ∧ c ≤ '9') ∨ ('a' ≤ c ∧ c ≤ 'f') ∨ ('A' ≤ c ∧ c ≤ 'F')

def isOctDig (c : Char) : Bool := '0' ≤ c ∧ c ≤ '7'

def isBinDig (c : Char) : Bool := c = '0' ∨ c = '1'

/-- One or more characters, all satisfying `p`. -/
def allSome (p : Char → Bool) (l : List Char) : Bool := !l.isEmpty && l.all p

/-- An exponent's digits, with an optional sign. -/
def signedDigits : List Char → Bool
  | [] => false
  | c :: r => if c = '+' ∨ c = '-' then allSome isDig r else allSome isDig (c :: r)

/-- An optional exponent part (`e`/`E`, optional sign, digits) ending the literal. -/
def expPart : List Char → Bool
  | [] => true
  | c :: r => (c = 'e' ∨ c = 'E') && signedDigits r

/-- An unsigned decimal literal: digits, optionally with a fractional part
    and an exponent. -/
def unsignedDec (l : List Char) : Bool :=
  let ip := l.takeWhile isDig
  let r1 := l.dropWhile isDig
  match r1 with
  | '.' :: r2 =>
    let fp := r2.takeWhile isDig
    let r3 := r2.dropWhile isDig
    (!ip.isEmpty || !fp.isEmpty) && expPart r3
  | _ => !ip.isEmpty && expPart r1

/-- An unsigned decimal literal or `Infinity` (what may follow a sign). -/
def decOrInf (l : List Char) : Bool :=
  decide (l = "Infinity".data) || unsignedDec l

/-- A radix literal: `0x`/`0X`, `0o`/`0O`, `0b`/`0B` followed by digits. -/
def radixLit : List Char → Bool
  | '0' :: c :: r =>
    ((c = 'x' ∨ c = 'X') && allSome isHexDig r) ||
    ((c = 'o' ∨ c = 'O') && allSome isOctDig r) ||
    ((c = 'b' ∨ c = 'B') && allSome isBinDig r)
  | _ => false

/-- The trimmed body of a string accepted by `Number()`. -/
def strNumericLiteral : List Char → Bool
  | [] => true
  | '+' :: r => decOrInf r
  | '-' :: r => decOrInf r
  | l => decOrInf l || radixLit l

/-- `!isNaN(Number(s))`: the test both parsers use to store a value as a number. -/
def jsIsNumeric (s : String) : Bool := strNumericLiteral (trimChars s.data)

/-! ## Intermediate data model (`src/types.ts`) -/

/-- `'male' | 'female' | 'other' | 'unknown'`. -/
inductive Gender
  | male | female | other | unknown
deriving DecidableEq, Repr

/-- An observation value is `number | string`.  A numeric value carries the raw
    string it was parsed from; JavaScript's canonical re-rendering of numbers
    (`String(Number(raw))`) is not modelled, which no claim depends on. -/
inductive ObsValue
  | num (s : String)
  | str (s : String)
deriving DecidableEq, Repr

/-- `String(observationValue)` as used by `generateObservationId`. -/
def ObsValue.render : ObsValue → String
  | .num s => s
  | .str s => s

/-- `typeof observationValue === 'number'`. -/
def ObsValue.isNum : ObsValue → Bool
  | .num _ => true
  | .str _ => false

/-- `PatientData` from `src/types.ts`.  Optional (`?:`) fields are `Option`. -/
structure PatientData where
  patientId : String
  firstName : String
  lastName : String
  birthDate : String
  gender : Gender
  addressLine : Option String := none
  city : Option String := none
  state : Option String := none
  postalCode : Option String := none
  phone : Option String := none
  email : Option String := none
deriving DecidableEq, Repr

/-- `ObservationData` from `src/types.ts`. -/
structure ObservationData where
  patientId : String
  observationType : String
  observationValue : ObsValue
  observationUnit : String
  observationDate : String
deriving DecidableEq, Repr

/-- `ParsedData` from `src/types.ts`. -/
structure ParsedData where
  patients : List PatientData
  observations : List ObservationData
deriving DecidableEq, Repr

/-- JavaScript `x || y` where `x` may be `undefined` (`none`). -/
def jsOrOpt (x : Option String) (d : String) : String :=
  match x with
  | some s => jsOr s d
  | none => d

/-! ## CSV parser (`src/harmonization/csv-parser.ts`)

The `csv-parse` library call is the input boundary: its output is the list of
header-keyed rows, so the embedding takes a `List CSVRow` directly.  The
`new Date().toISOString().split('T')[0]` fallback date is the `today`
parameter. -/

namespace Csv

/-- The `CSVRow` interface: required columns are `String`, optional ones
    `Option String` (`none` = column absent, `some ""` = present but empty). -/
structure CSVRow where
  patient_id : String
  first_name : String
  last_name : String
  birth_date : String
  gender : String
  address_line : Option String := none
  city : Option String := none
  state : Option String := none
  postal_code : Option String := none
  phone : Option String := none
  email : Option String := none
  observation_type : Option String := none
  observation_value : Option String := none
  observation_unit : Option String := none
  observation_date : Option String := none
deriving DecidableEq, Repr

/-- `normalizeGender` from `csv-parser.ts` (lower-cases, then trims). -/
def normalizeGender (gender : String) : Gender :=
  let normalized := jsTrim (jsToLower gender)
  if normalized = "male" ∨ normalized = "m" then .male
  else if normalized = "female" ∨ normalized = "f" then .female
  else if normalized = "other" ∨ normalized = "o" then .other
  else .unknown

/-- The `PatientData` object literal registered by `parseCSV` for a row. -/
def patientFromRow (row : CSVRow) : PatientData :=
  { patientId := row.patient_id
    firstName := row.first_name
    lastName := row.last_name
    birthDate := row.birth_date
    gender := normalizeGender row.gender
    addressLine := row.address_line
    city := row.city
    state := row.state
    postalCode := row.postal_code
    phone := row.phone
    email := row.email }

/-- The `ObservationData` object literal pushed by `parseCSV` for a row. -/
def observationFromRow (today : String) (row : CSVRow) : ObservationData :=
  let v := row.observation_value.getD ""
  { patientId := row.patient_id
    observationType := row.observation_type.getD ""
    observationValue := if jsIsNumeric v then .num v else .str v
    observationUnit := jsOrOpt row.observation_unit ""
    observationDate := jsOrOpt row.observation_date today }

/-- One iteration of the `for (const row of records)` loop in `parseCSV`:
    register the patient unless its id is taken, and push an observation when
    both observation columns are truthy. -/
def step (today : String) (st : List PatientData × List ObservationData)
    (row : CSVRow) : List PatientData × List ObservationData :=
  let patients :=
    if st.1.any (fun p => p.patientId = row.patient_id) then st.1
    else st.1 ++ [patientFromRow row]
  let observations :=
    if truthy row.observation_type && truthy row.observation_value then
      st.2 ++ [observationFromRow today row]
    else st.2
  (patients, observations)

/-- `parseCSV`: the loop over parsed rows.  The `Map` keyed by `patient_id` is
    modelled by the patient list itself, since every stored value's
    `patientId` equals its key. -/
def parseCSV (today : String) (records : List CSVRow) : ParsedData :=
  let st := records.foldl (step today) ([], [])
  ⟨st.1, st.2⟩

end Csv

/-! ## HL7v2 parser (`src/harmonization/hl7v2-parser.ts`)

`Date.now()` (the synthetic-id fallback) is the `nowMs` parameter and the
`new Date()…` MSH-timestamp fallback is the `nowTs` parameter. -/

namespace Hl7

structure HL7Segment where
  type : String
  fields : List String
deriving DecidableEq, Repr

structure HL7Message where
  segments : List HL7Segment
deriving DecidableEq, Repr

/-- `OBX_CODE_MAP`: LOINC code → intermediate observation type tag. -/
def OBX_CODE_MAP : List (String × String) :=
  [("8480-6", "blood_pressure_systolic"),
   ("8462-4", "blood_pressure_diastolic"),
   ("8867-4", "heart_rate"),
   ("8310-5", "body_temperature"),
   ("2339-0", "blood_glucose"),
   ("29463-7", "body_weight"),
   ("2708-6", "oxygen_saturation")]

/-- `parseHL7Segment`: split a line on `|`; head names the segment type. -/
def parseHL7Segment (line : String) : HL7Segment :=
  let parts := jsSplit '|' line
  { type := parts.headD "", fields := parts.tail }

/-- `parseHL7Message`: nonblank lines, each parsed as a segment. -/
def parseHL7Message (content : String) : HL7Message :=
  let lines := (jsSplit '\n' content).filter (fun l => !(jsTrim l).isEmpty)
  ⟨lines.map parseHL7Segment⟩

/-- One iteration of the line loop in `splitMessages`; the state is
    `(messages, currentMessage)`. -/
def splitMessagesStep (st : List String × List String) (line : String) :
    List String × List String :=
  if jsStartsWith line "MSH|" then
    (if st.2.isEmpty then st.1 else st.1 ++ [jsJoin '\n' st.2], [line])
  else if !(jsTrim line).isEmpty then (st.1, st.2 ++ [line])
  else st

/-- `splitMessages`: cut the input at each line starting with `MSH|`. -/
def splitMessages (content : String) : List String :=
  let st := (jsSplit '\n' content).foldl splitMessagesStep ([], [])
  if st.2.isEmpty then st.1 else st.1 ++ [jsJoin '\n' st.2]

/-- `normalizeGender` from `hl7v2-parser.ts` (upper-cases, then trims). -/
def normalizeGender (gender : String) : Gender :=
  let normalized := jsTrim (jsToUpper gender)
  if normalized = "M" ∨ normalized = "MALE" then .male
  else if normalized = "F" ∨ normalized = "FEMALE" then .female
  else if normalized = "O" ∨ normalized = "OTHER" then .other
  else .unknown

/-- `parseHL7Date`: `YYYYMMDD…` (8 or more characters) becomes
    `YYYY-MM-DD`; anything shorter passes through unchanged. -/
def parseHL7Date (hl7Date : String) : String :=
  if hl7Date.data.length ≥ 8 then
    let year := hl7Date.data.take 4
    let month := (hl7Date.data.drop 4).take 2
    let day := (hl7Date.data.drop 6).take 2
    ⟨year ++ '-' :: month ++ '-' :: day⟩
  else hl7Date

/-- `extractPatientFromPID`.  The `try`/`catch` wrapper is dead in this model
    (no operation throws), so the function is total; `Date.now()` is `nowMs`. -/
def extractPatientFromPID (nowMs : Nat) (pid : HL7Segment) : PatientData :=
  let idField := pid.fields.getD 2 ""
  let patientId := jsOr ((jsSplit '^' idField).headD "") ("HL7-" ++ toString nowMs)
  let nameField := pid.fields.getD 4 ""
  let nameParts := jsSplit '^' nameField
  let lastName := jsOr (nameParts.getD 0 "") "Unknown"
  let firstName := jsOr (nameParts.getD 1 "") "Unknown"
  let birthDate := parseHL7Date (pid.fields.getD 6 "")
  let gender := normalizeGender (pid.fields.getD 7 "")
  let addressParts := jsSplit '^' (pid.fields.getD 10 "")
  let phone := jsOrUndef ((jsSplit '^' (pid.fields.getD 12 "")).headD "")
  { patientId := patientId
    firstName := firstName
    lastName := lastName
    birthDate := birthDate
    gender := gender
    addressLine := jsOrUndef (addressParts.getD 0 "")
    city := jsOrUndef (addressParts.getD 2 "")
    state := jsOrUndef (addressParts.getD 3 "")
    postalCode := jsOrUndef (addressParts.getD 4 "")
    phone := phone
    email := none }

/-- `loincCode.replace(/[^a-zA-Z0-9]/g, '_')`. -/
def isAlphanum (c : Char) : Bool :=
  ('a' ≤ c ∧ c ≤ 'z') ∨ ('A' ≤ c ∧ c ≤ 'Z') ∨ ('0' ≤ c ∧ c ≤ '9')

def sanitizeCode (s : String) : String :=
  ⟨s.data.map (fun c => if isAlphanum c then c else '_')⟩

/-- `extractObservationFromOBX`; total for the same reason as the PID
    extraction. -/
def extractObservationFromOBX (patientId : String) (mshTimestamp : String)
    (obx : HL7Segment) : ObservationData :=
  let identifierField := obx.fields.getD 2 ""
  let loincCode := (jsSplit '^' identifierField).headD ""
  let observationType := jsOrOpt (OBX_CODE_MAP.lookup loincCode) (sanitizeCode loincCode)
  let valueRaw := obx.fields.getD 4 ""
  let observationValue := if jsIsNumeric valueRaw then ObsValue.num valueRaw
                          else ObsValue.str valueRaw
  let observationUnit := jsOr ((jsSplit '^' (obx.fields.getD 5 "")).headD "") ""
  let dateField := jsOr (obx.fields.getD 13 "") mshTimestamp
  { patientId := patientId
    observationType := observationType
    observationValue := observationValue
    observationUnit := observationUnit
    observationDate := parseHL7Date dateField }

/-- One iteration of the message loop of `parseHL7v2`: no `PID` segment skips
    the message; otherwise the patient is registered (first occurrence of an
    id wins) and one observation per `OBX` segment is appended. -/
def processMessage (nowMs : Nat) (nowTs : String)
    (st : List PatientData × List ObservationData) (msgContent : String) :
    List PatientData × List ObservationData :=
  let message := parseHL7Message msgContent
  let msh := message.segments.find? (fun s => s.type = "MSH")
  let mshTimestamp := jsOr ((msh.map (fun m => m.fields.getD 5 "")).getD "") nowTs
  match message.segments.find? (fun s => s.type = "PID") with
  | none => st
  | some pidSegment =>
    let patient := extractPatientFromPID nowMs pidSegment
    let patients :=
      if st.1.any (fun p => p.patientId = patient.patientId) then st.1
      else st.1 ++ [patient]
    let obxSegments := message.segments.filter (fun s => s.type = "OBX")
    (patients, st.2 ++ obxSegments.map (extractObservationFromOBX patient.patientId mshTimestamp))

/-- `parseHL7v2`: split into messages and fold the message loop. -/
def parseHL7v2 (nowMs : Nat) (nowTs : String) (content : String) : ParsedData :=
  let st := (splitMessages content).foldl (processMessage nowMs nowTs) ([], [])
  ⟨st.1, st.2⟩

/-- The patient a single message contributes, if any: `none` exactly when the
    message has no `PID` segment. -/
def msgPatient (nowMs : Nat) (msgContent : String) : Option PatientData :=
  ((parseHL7Message msgContent).segments.find? (fun s => s.type = "PID")).map
    (extractPatientFromPID nowMs)

end Hl7

/-! ## FHIR mapper and bundle builder (`src/harmonization/fhir-mapper.ts`) -/

def FHIR_IDENTIFIER_SYSTEM : String := "urn:fhir-pipeline:patient-id"
def FHIR_OBSERVATION_IDENTIFIER_SYSTEM : String := "urn:fhir-pipeline:observation-id"

structure FHIRIdentifier where
  system : String
  value : String
deriving DecidableEq, Repr

structure FHIRHumanName where
  use : String
  family : String
  given : List String
deriving DecidableEq, Repr

structure FHIRTelecomPoint where
  system : String
  value : String
  use : Option String
deriving DecidableEq, Repr

structure FHIRAddress where
  use : String
  line : Option (List String)
  city : Option String
  state : Option String
  postalCode : Option String
  country : String
deriving DecidableEq, Repr

/-- The `FHIRPatient` resource (its fixed `resourceType` is carried by the
    bundle-entry constructor below). -/
structure FHIRPatient where
  identifier : List FHIRIdentifier
  name : List FHIRHumanName
  gender : Gender
  birthDate : String
  telecom : Option (List FHIRTelecomPoint) := none
  address : Option (List FHIRAddress) := none
deriving DecidableEq, Repr

/-- `mapPatientToFHIR`. -/
def mapPatientToFHIR (patient : PatientData) : FHIRPatient :=
  let telecom : List FHIRTelecomPoint :=
    (if truthy patient.phone then
      [{ system := "phone", value := patient.phone.getD "", use := some "home" }]
     else []) ++
    (if truthy patient.email then
      [{ system := "email", value := patient.email.getD "", use := none }]
     else [])
  { identifier := [{ system := FHIR_IDENTIFIER_SYSTEM, value := patient.patientId }]
    name := [{ use := "official", family := patient.lastName, given := [patient.firstName] }]
    gender := patient.gender
    birthDate := patient.birthDate
    telecom := if telecom.length > 0 then some telecom else none
    address :=
      if truthy patient.addressLine || truthy patient.city ||
         truthy patient.state || truthy patient.postalCode then
        some [{ use := "home"
                line := if truthy patient.addressLine then some [patient.addressLine.getD ""]
                        else none
                city := patient.city
                state := patient.state
                postalCode := patient.postalCode
                country := "US" }]
      else none }

structure FHIRCoding where
  system : String
  code : String
  display : String
deriving DecidableEq, Repr

structure FHIRCodeableConcept where
  coding : Option (List FHIRCoding)
  text : String
deriving DecidableEq, Repr

/-- `valueQuantity`; `value` carries the number's string form (see `ObsValue`). -/
structure FHIRQuantity where
  value : String
  unit : String
  system : String
  code : String
deriving DecidableEq, Repr

structure FHIRObservation where
  identifier : List FHIRIdentifier
  status : String
  code : FHIRCodeableConcept
  subject : String
  effectiveDateTime : String
  valueQuantity : Option FHIRQuantity := none
  valueString : Option String := none
deriving DecidableEq, Repr

/-- `LOINC_CODES` from `src/types.ts`: type tag → (LOINC code, display). -/
def LOINC_CODES : List (String × String × String) :=
  [("blood_pressure_systolic", "8480-6", "Systolic blood pressure"),
   ("blood_pressure_diastolic", "8462-4", "Diastolic blood pressure"),
   ("heart_rate", "8867-4", "Heart rate"),
   ("body_temperature", "8310-5", "Body temperature"),
   ("blood_glucose", "2339-0", "Glucose [Mass/volume] in Blood"),
   ("body_weight", "29463-7", "Body weight"),
   ("oxygen_saturation", "2708-6", "Oxygen saturation in Arterial blood")]

/-- `generateObservationId`: the composite key `patientId:type:date:value`. -/
def generateObservationId (observation : ObservationData) : String :=
  String.intercalate ":"
    [observation.patientId, observation.observationType,
     observation.observationDate, observation.observationValue.render]

/-- `observationType.replace(/_/g, ' ')`. -/
def underscoresToSpaces (s : String) : String :=
  ⟨s.data.map (fun c => if c = '_' then ' ' else c)⟩

/-- `mapObservationToFHIR`. -/
def mapObservationToFHIR (observation : ObservationData)
    (patientReference : String) : FHIRObservation :=
  let loincInfo := LOINC_CODES.lookup observation.observationType
  let observationId := generateObservationId observation
  let base : FHIRObservation :=
    { identifier := [{ system := FHIR_OBSERVATION_IDENTIFIER_SYSTEM, value := observationId }]
      status := "final"
      code := { coding := loincInfo.map (fun ci =>
                  [{ system := "http://loinc.org", code := ci.1, display := ci.2 }])
                text := underscoresToSpaces observation.observationType }
      subject := patientReference
      effectiveDateTime := observation.observationDate }
  match observation.observationValue with
  | .num s =>
    { base with valueQuantity := some { value := s, unit := observation.observationUnit,
                                        system := "http://unitsofmeasure.org",
                                        code := observation.observationUnit } }
  | .str s => { base with valueString := some s }

inductive BundleResource
  | patient (p : FHIRPatient)
  | observation (o : FHIRObservation)
deriving DecidableEq, Repr

structure BundleRequest where
  method : String
  url : String
  ifNoneExist : String
deriving DecidableEq, Repr

structure BundleEntry where
  fullUrl : String
  resource : BundleResource
  request : BundleRequest
deriving DecidableEq, Repr

structure FHIRBundle where
  resourceType : String
  type : String
  entry : List BundleEntry
deriving DecidableEq, Repr

/-- The bundle entry pushed for a patient: a `POST Patient` create-if-absent
    request keyed on the namespaced external identifier. -/
def patientEntry (uuid : String) (patient : PatientData) : BundleEntry :=
  { fullUrl := "urn:uuid:" ++ uuid
    resource := .patient (mapPatientToFHIR patient)
    request := { method := "POST", url := "Patient",
                 ifNoneExist := "identifier=" ++ FHIR_IDENTIFIER_SYSTEM ++ "|"
                                  ++ patient.patientId } }

/-- The bundle entry pushed for a retained observation: a `POST Observation`
    create-if-absent request keyed on the composite observation identifier,
    whose resource references the owning patient's intra-bundle uuid. -/
def observationEntry (uuid patientUUID : String) (observation : ObservationData) :
    BundleEntry :=
  { fullUrl := "urn:uuid:" ++ uuid
    resource := .observation (mapObservationToFHIR observation ("urn:uuid:" ++ patientUUID))
    request := { method := "POST", url := "Observation",
                 ifNoneExist := "identifier=" ++ FHIR_OBSERVATION_IDENTIFIER_SYSTEM
                                  ++ "|" ++ generateObservationId observation } }

/-- One iteration of the patient loop of `createFHIRBundle`.  The state is
    `(uuid counter, patientUUIDs, entries)`; `uuidv4()` is `uuids ctr`, and
    `Map.set` is modelled by prepending (so a `lookup` finds the latest
    binding, as `Map.get` does). -/
def bundlePatientStep (uuids : Nat → String)
    (st : Nat × List (String × String) × List BundleEntry) (patient : PatientData) :
    Nat × List (String × String) × List BundleEntry :=
  (st.1 + 1, (patient.patientId, uuids st.1) :: st.2.1,
   st.2.2 ++ [patientEntry (uuids st.1) patient])

/-- One iteration of the observation loop of `createFHIRBundle`: an owner id
    absent from `patientUUIDs` drops the observation (the `continue` branch). -/
def bundleObservationStep (uuids : Nat → String) (puuids : List (String × String))
    (st : Nat × List BundleEntry) (observation : ObservationData) :
    Nat × List BundleEntry :=
  match puuids.lookup observation.patientId with
  | none => st
  | some patientUUID =>
    (st.1 + 1, st.2 ++ [observationEntry (uuids st.1) patientUUID observation])

/-- `createFHIRBundle`: patients first, then observations, sharing one supply
    of fresh uuids. -/
def createFHIRBundle (uuids : Nat → String) (data : ParsedData) : FHIRBundle :=
  let stP := data.patients.foldl (bundlePatientStep uuids) (0, [], [])
  let stO := data.observations.foldl (bundleObservationStep uuids stP.2.1) (stP.1, stP.2.2)
  { resourceType := "Bundle", type := "transaction", entry := stO.2 }

/-! ## Dispatcher response accounting (`src/harmonization/index.ts`)

Both POST branches aggregate the FHIR store's response bundle the same way:
`successCount` counts entries with `e.response?.status?.startsWith('20')`, and
`errorCount` is the rest.  A response entry is modelled by its (possibly
missing) status string. -/

structure ResponseEntry where
  status : Option String
deriving DecidableEq, Repr

/-- The dispatcher's success count over a response bundle's entries. -/
def successCount (entries : List ResponseEntry) : Nat :=
  (entries.filter (fun e =>
    match e.status with
    | some s => jsStartsWith s "20"
    | none => false)).length

/-- The dispatcher's failure count: all remaining entries. -/
def errorCount (entries : List ResponseEntry) : Nat :=
  entries.length - successCount entries

/-- The success count the spec describes (2xx-class): entries whose status
    begins with `"2"`.  Stated from the spec's words, for comparison with
    `successCount` above. -/
def specSuccessCount (entries : List ResponseEntry) : Nat :=
  (entries.filter (fun e =>
    match e.status with
    | some s => jsStartsWith s "2"
    | none => false)).length

/-! ## Derived definitions used by the theorems -/

/-- The status test the dispatcher actually applies to a response entry. -/
def entryIsSuccess (e : ResponseEntry) : Bool :=
  match e.status with
  | some s => jsStartsWith s "20"
  | none => false

/-- Closed form of the patient loop's entry output: one `patientEntry` per
    patient, consuming one uuid each, starting at counter `k`. -/
def bundlePatientEntries (uuids : Nat → String) (k : Nat) :
    List PatientData → List BundleEntry
  | [] => []
  | p :: ps => patientEntry (uuids k) p :: bundlePatientEntries uuids (k + 1) ps

/-- Closed form of the `patientUUIDs` map after the patient loop (latest
    binding first, as the fold prepends). -/
def bundlePUuids (uuids : Nat → String) (k : Nat) :
    List PatientData → List (String × String)
  | [] => []
  | p :: ps => bundlePUuids uuids (k + 1) ps ++ [(p.patientId, uuids k)]

/-- Closed form of the observation loop's entry output: one entry per
    observation whose owner resolves in `puuids`, consuming one uuid each. -/
def bundleObservationEntries (uuids : Nat → String)
    (puuids : List (String × String)) (k : Nat) :
    List ObservationData → List BundleEntry
  | [] => []
  | o :: os =>
    match puuids.lookup o.patientId with
    | none => bundleObservationEntries uuids puuids k os
    | some pu => observationEntry (uuids k) pu o ::
        bundleObservationEntries uuids puuids (k + 1) os

/-- The observations whose owning patient identifier occurs in the parsed
    patient list. -/
def retainedObservations (data : ParsedData) : List ObservationData :=
  data.observations.filter (fun o => data.patients.any (fun p => p.patientId = o.patientId))

/-- The sequence of idempotency directives (`ifNoneExist` conditions) of a
    bundle, in entry order. -/
def directives (b : FHIRBundle) : List String :=
  b.entry.map (fun e => e.request.ifNoneExist)

/-- Whether a bundle entry carries a Patient resource. -/
def entryIsPatient (e : BundleEntry) : Bool :=
  match e.resource with
  | .patient _ => true
  | .observation _ => false

/-- The Patient resource of an entry, when it carries one. -/
def patientResourceOf (e : BundleEntry) : Option FHIRPatient :=
  match e.resource with
  | .patient p => some p
  | .observation _ => none

/-- The namespaced observation identifier of an entry, when it carries an
    Observation resource. -/
def obsIdentOf (e : BundleEntry) : Option String :=
  match e.resource with
  | .observation o => some ((o.identifier.headD ⟨"", ""⟩).value)
  | .patient _ => none

/-- The registration step both parsers use on their patient list: append the
    candidate unless its identifier is already registered. -/
def regStep (acc : List PatientData) (q : PatientData) : List PatientData :=
  if acc.any (fun p => p.patientId = q.patientId) then acc else acc ++ [q]

/-- The patient each CSV row proposes for registration, in row order. -/
def Csv.candidatePatients (records : List Csv.CSVRow) : List PatientData :=
  records.map Csv.patientFromRow

/-- The patient each message proposes for registration (messages without a
    `PID` segment propose none), in message order. -/
def Hl7.candidatePatients (nowMs : Nat) (content : String) : List PatientData :=
  (Hl7.splitMessages content).filterMap (Hl7.msgPatient nowMs)

/-- The message loop of `parseHL7v2`, starting from an explicit message list. -/
def Hl7.parseMessages (nowMs : Nat) (nowTs : String) (msgs : List String) : ParsedData :=
  let st := msgs.foldl (Hl7.processMessage nowMs nowTs) ([], [])
  ⟨st.1, st.2⟩

/-- The observations one message contributes: none without a `PID` segment,
    otherwise one `extractObservationFromOBX` result per `OBX` segment. -/
def Hl7.msgObservations (nowMs : Nat) (nowTs : String) (msgContent : String) :
    List ObservationData :=
  let message := Hl7.parseHL7Message msgContent
  let msh := message.segments.find? (fun s => s.type = "MSH")
  let mshTimestamp := jsOr ((msh.map (fun m => m.fields.getD 5 "")).getD "") nowTs
  match message.segments.find? (fun s => s.type = "PID") with
  | none => []
  | some pidSegment =>
    (message.segments.filter (fun s => s.type = "OBX")).map
      (Hl7.extractObservationFromOBX
        (Hl7.extractPatientFromPID nowMs pidSegment).patientId mshTimestamp)

/-! ### Concrete sample inputs (used to instantiate theorems with hypotheses) -/

def sampleUuids : Nat → String := fun n => "u" ++ toString n

def samplePatient1 : PatientData :=
  { patientId := "P001", firstName := "John", lastName := "Doe",
    birthDate := "1990-01-15", gender := .male }

def samplePatient2 : PatientData :=
  { patientId := "P002", firstName := "Jane", lastName := "Smith",
    birthDate := "1985-03-22", gender := .female }

def sampleObservation (pid v : String) : ObservationData :=
  { patientId := pid, observationType := "heart_rate",
    observationValue := .num v, observationUnit := "bpm",
    observationDate := "2024-01-15" }

/-- Two patients and three observations, the middle one owned by a patient id
    that does not occur (`P999`). -/
def sampleParsedData : ParsedData :=
  ⟨[samplePatient1, samplePatient2],
   [sampleObservation "P001" "72", sampleObservation "P999" "80",
    sampleObservation "P002" "64"]⟩

def sampleRow1 : Csv.CSVRow :=
  { patient_id := "P001", first_name := "John", last_name := "Doe",
    birth_date := "1990-01-15", gender := "male",
    observation_type := some "heart_rate", observation_value := some "72" }

def sampleRow2 : Csv.CSVRow :=
  { patient_id := "P001", first_name := "Johnny", last_name := "D",
    birth_date := "1990-01-15", gender := "M",
    observation_type := some "heart_rate", observation_value := some "75" }

/-- Two rows sharing the identifier `P001` with differing name fields. -/
def sampleRows : List Csv.CSVRow := [sampleRow1, sampleRow2]

/-- Two messages carrying the same patient identifier `P1`. -/
def sampleHl7Content : String :=
  "MSH|a\nPID|1||P1^^M||Doe^John||19900115|M\nMSH|b\nPID|1||P1^^M||D^Johnny||19900115|M"

/-- One message with a header timestamp, a patient and one numeric result. -/
def sampleHl7ObsContent : String :=
  "MSH|^~\\&|A|B|C|D|20240115||ADT|1|P|2.5\nPID|1||P1^^M||Doe^John||19900115|M\nOBX|1|NM|8867-4^HR||72|bpm"

theorem successCount_eq_countP (entries : List ResponseEntry) :
    successCount entries = entries.countP entryIsSuccess := by
  rw [List.countP_eq_length_filter]
  unfold successCount entryIsSuccess
  rfl

/-- C1: the claim says a status string beginning with `"2"` — such as
    `"226"` — is counted as a success; the dispatcher's filter in fact tests
    `startsWith('20')`, so a one-entry response bundle with status `"226 IM
    Used"` yields a success count of 0 where the 2xx-class rule demands 1. -/
theorem dispatcher_success_2xx_counterexample :
    successCount [⟨some "226 IM Used"⟩] = 0 ∧
    specSuccessCount [⟨some "226 IM Used"⟩] = 1 ∧
    successCount [⟨some "226 IM Used"⟩] ≠ specSuccessCount [⟨some "226 IM Used"⟩] := by
  refine ⟨rfl, rfl, ?_⟩
  decide

/-- C1 (amended): the dispatcher's reported success count equals the number of
    reply entries whose status string begins with `"20"` (a present status is
    required), and the failure count equals the number of remaining entries —
    including entries with 2xx statuses such as `"226"` that do not begin with
    `"20"`. -/
theorem dispatcher_success_count_amended (entries : List ResponseEntry) :
    successCount entries = entries.countP entryIsSuccess ∧
    errorCount entries = entries.countP (fun e => !entryIsSuccess e) := by
  refine ⟨successCount_eq_countP entries, ?_⟩
  unfold errorCount
  rw [successCount_eq_countP]
  have h := List.length_eq_countP_add_countP entryIsSuccess entries
  have h2 : entries.countP (fun e => !entryIsSuccess e)
      = entries.countP (fun a => decide ¬entryIsSuccess a = true) := by
    apply List.countP_congr
    intro a _
    cases entryIsSuccess a <;> simp
  omega

/-- C2: the claim says every absent optional patient field (identifier, given
    name, family name, birth date, address parts, phone) is omitted from the
    intermediate record rather than substituted.  On a `PID` segment with no
    fields at all, `extractPatientFromPID` substitutes `"Unknown"` for both
    names, a synthetic `"HL7-"`-prefixed identifier for the missing id, and
    the raw empty string for the birth date — only the address parts and the
    phone are genuinely omitted. -/
theorem hl7_pid_optional_fields_counterexample :
    (Hl7.extractPatientFromPID 0 ⟨"PID", []⟩).firstName = "Unknown" ∧
    (Hl7.extractPatientFromPID 0 ⟨"PID", []⟩).lastName = "Unknown" ∧
    (Hl7.extractPatientFromPID 0 ⟨"PID", []⟩).patientId = "HL7-0" ∧
    (Hl7.extractPatientFromPID 0 ⟨"PID", []⟩).birthDate = "" := by
  refine ⟨rfl, rfl, rfl, rfl⟩

/-- C2 (amended): for a patient-identity segment, an absent address part or
    phone yields an omitted (`none`) attribute; an absent name component is
    substituted by `"Unknown"`, an absent identifier component by the
    synthetic `"HL7-"` timestamp id, and an absent birth date is carried
    through as the empty string.  Sex normalization is total, so an absent
    sex yields `unknown` rather than an error. -/
theorem hl7_pid_optional_fields_amended (pid : Hl7.HL7Segment) (nowMs : Nat) :
    ((jsSplit '^' (pid.fields.getD 10 "")).getD 0 "" = "" →
      (Hl7.extractPatientFromPID nowMs pid).addressLine = none) ∧
    ((jsSplit '^' (pid.fields.getD 10 "")).getD 2 "" = "" →
      (Hl7.extractPatientFromPID nowMs pid).city = none) ∧
    ((jsSplit '^' (pid.fields.getD 10 "")).getD 3 "" = "" →
      (Hl7.extractPatientFromPID nowMs pid).state = none) ∧
    ((jsSplit '^' (pid.fields.getD 10 "")).getD 4 "" = "" →
      (Hl7.extractPatientFromPID nowMs pid).postalCode = none) ∧
    ((jsSplit '^' (pid.fields.getD 12 "")).headD "" = "" →
      (Hl7.extractPatientFromPID nowMs pid).phone = none) ∧
    (Hl7.extractPatientFromPID nowMs pid).email = none ∧
    ((jsSplit '^' (pid.fields.getD 4 "")).getD 0 "" = "" →
      (Hl7.extractPatientFromPID nowMs pid).lastName = "Unknown") ∧
    ((jsSplit '^' (pid.fields.getD 4 "")).getD 1 "" = "" →
      (Hl7.extractPatientFromPID nowMs pid).firstName = "Unknown") ∧
    ((jsSplit '^' (pid.fields.getD 2 "")).headD "" = "" →
      (Hl7.extractPatientFromPID nowMs pid).patientId = "HL7-" ++ toString nowMs) ∧
    (pid.fields.getD 6 "" = "" →
      (Hl7.extractPatientFromPID nowMs pid).birthDate = "") := by
  unfold Hl7.extractPatientFromPID
  refine ⟨?_, ?_, ?_, ?_, ?_, rfl, ?_, ?_, ?_, ?_⟩
  all_goals intro h
  all_goals simp only [h, jsOrUndef, jsOr, String.isEmpty_iff, if_pos rfl, ite_true]
  all_goals simp [Hl7.parseHL7Date]

/-- C2 (witness): the amended theorem applied to the empty `PID` segment. -/
theorem hl7_pid_optional_fields_amended_witness :
    (Hl7.extractPatientFromPID 3 ⟨"PID", []⟩).addressLine = none ∧
    (Hl7.extractPatientFromPID 3 ⟨"PID", []⟩).phone = none ∧
    (Hl7.extractPatientFromPID 3 ⟨"PID", []⟩).lastName = "Unknown" ∧
    (Hl7.extractPatientFromPID 3 ⟨"PID", []⟩).patientId = "HL7-3" ∧
    (Hl7.extractPatientFromPID 3 ⟨"PID", []⟩).birthDate = "" := by
  have h := hl7_pid_optional_fields_amended ⟨"PID", []⟩ 3
  exact ⟨h.1 rfl, h.2.2.2.2.1 rfl, h.2.2.2.2.2.2.1 rfl,
    h.2.2.2.2.2.2.2.2.1 rfl, h.2.2.2.2.2.2.2.2.2 rfl⟩

/-- C10: a `PID` segment whose composite identifier field is empty, or has an
    empty first `^`-component, still produces a patient, with the synthetic
    identifier `"HL7-" ++ Date.now()`.  Any message carrying such a segment
    registers that identifier in the parser's patient output, and the
    identifier determines the clock value it was minted from, so it varies
    across runs with the clock. -/
theorem hl7_synthetic_patient_id (pid : Hl7.HL7Segment) (nowMs : Nat)
    (h : (jsSplit '^' (pid.fields.getD 2 "")).headD "" = "") :
    (Hl7.extractPatientFromPID nowMs pid).patientId = "HL7-" ++ toString nowMs ∧
    (∀ nowMs' : Nat,
      (Hl7.extractPatientFromPID nowMs pid).patientId
        = (Hl7.extractPatientFromPID nowMs' pid).patientId →
      toString nowMs = toString nowMs') ∧
    (∀ (nowTs msg : String) (st : List PatientData × List ObservationData),
      (Hl7.parseHL7Message msg).segments.find? (fun s => s.type = "PID") = some pid →
      ("HL7-" ++ toString nowMs) ∈
        (Hl7.processMessage nowMs nowTs st msg).1.map PatientData.patientId) := by
  have hid : ∀ n : Nat,
      (Hl7.extractPatientFromPID n pid).patientId = "HL7-" ++ toString n := by
    intro n
    unfold Hl7.extractPatientFromPID
    simp only [h, jsOr, String.isEmpty_iff, if_pos rfl, ite_true]
  refine ⟨hid nowMs, ?_, ?_⟩
  · intro nowMs' heq
    rw [hid nowMs, hid nowMs'] at heq
    have := congrArg String.data heq
    rw [String.data_append, String.data_append] at this
    exact String.ext (List.append_cancel_left this)
  · intro nowTs msg st hfind
    unfold Hl7.processMessage
    simp only [hfind]
    by_cases hmem : st.1.any
        (fun p => p.patientId = (Hl7.extractPatientFromPID nowMs pid).patientId) = true
    · rw [if_pos hmem]
      rcases List.any_eq_true.mp hmem with ⟨p, hp, hpe⟩
      have : p.patientId = (Hl7.extractPatientFromPID nowMs pid).patientId :=
        of_decide_eq_true hpe
      rw [← hid nowMs, ← this]
      exact List.mem_map_of_mem _ hp
    · rw [if_neg hmem]
      rw [← hid nowMs]
      simp

/-- C10 (witness): a `PID` segment carrying an id field with an empty first
    `^`-component, at clock value 42, inside the one-segment message
    `"PID|1||^X"`. -/
theorem hl7_synthetic_patient_id_witness :
    (Hl7.extractPatientFromPID 42 ⟨"PID", ["1", "", "^X"]⟩).patientId = "HL7-" ++ toString 42 ∧
    ("HL7-" ++ toString 42) ∈
      (Hl7.processMessage 42 "TS" ([], []) "PID|1||^X").1.map PatientData.patientId := by
  have h := hl7_synthetic_patient_id ⟨"PID", ["1", "", "^X"]⟩ 42 rfl
  exact ⟨h.1, h.2.2 "TS" "PID|1||^X" ([], []) rfl⟩

/-! ### Structure of the built bundle -/

theorem foldl_bundlePatientStep (uuids : Nat → String) (ps : List PatientData) :
    ∀ (k : Nat) (puu : List (String × String)) (acc : List BundleEntry),
    ps.foldl (bundlePatientStep uuids) (k, puu, acc)
      = (k + ps.length, bundlePUuids uuids k ps ++ puu,
         acc ++ bundlePatientEntries uuids k ps) := by
  induction ps with
  | nil => intro k puu acc; simp [bundlePUuids, bundlePatientEntries]
  | cons p ps ih =>
    intro k puu acc
    rw [List.foldl_cons]
    show ps.foldl (bundlePatientStep uuids)
        (k + 1, (p.patientId, uuids k) :: puu, acc ++ [patientEntry (uuids k) p]) = _
    rw [ih]
    simp [bundlePUuids, bundlePatientEntries]
    omega

theorem foldl_bundleObservationStep (uuids : Nat → String)
    (puuids : List (String × String)) (os : List ObservationData) :
    ∀ (k : Nat) (acc : List BundleEntry),
    os.foldl (bundleObservationStep uuids puuids) (k, acc)
      = (k + (os.filter (fun o => (puuids.lookup o.patientId).isSome)).length,
         acc ++ bundleObservationEntries uuids puuids k os) := by
  induction os with
  | nil => intro k acc; simp [bundleObservationEntries]
  | cons o os ih =>
    intro k acc
    rw [List.foldl_cons]
    rcases hlk : puuids.lookup o.patientId with _ | pu
    · have hstep : bundleObservationStep uuids puuids (k, acc) o = (k, acc) := by
        unfold bundleObservationStep; rw [hlk]
      rw [hstep, ih]
      simp [bundleObservationEntries, hlk, List.filter_cons]
    · have hstep : bundleObservationStep uuids puuids (k, acc) o
          = (k + 1, acc ++ [observationEntry (uuids k) pu o]) := by
        unfold bundleObservationStep; rw [hlk]
      rw [hstep, ih]
      simp [bundleObservationEntries, hlk, List.filter_cons]
      omega

/-- The built bundle is the patient entries (in input order) followed by the
    entries of the observations whose owner resolves (in input order). -/
theorem createFHIRBundle_entry (uuids : Nat → String) (data : ParsedData) :
    (createFHIRBundle uuids data).entry
      = bundlePatientEntries uuids 0 data.patients
        ++ bundleObservationEntries uuids (bundlePUuids uuids 0 data.patients)
            data.patients.length data.observations := by
  unfold createFHIRBundle
  simp [foldl_bundlePatientStep, foldl_bundleObservationStep]

/-- Resolvability in the final `patientUUIDs` map is exactly membership of the
    owner id among the patients; in particular it does not depend on the uuid
    supply or the counter. -/
theorem lookup_bundlePUuids_isSome (uuids : Nat → String) (ps : List PatientData)
    (id : String) : ∀ k : Nat,
    ((bundlePUuids uuids k ps).lookup id).isSome
      = ps.any (fun p => p.patientId = id) := by
  induction ps with
  | nil => intro k; simp [bundlePUuids]
  | cons p ps ih =>
    intro k
    simp only [bundlePUuids, List.lookup_append, Option.isSome_or, ih (k + 1),
      List.any_cons]
    have hsing : (List.lookup id [(p.patientId, uuids k)]).isSome
        = decide (p.patientId = id) := by
      by_cases h : id = p.patientId
      · simp [List.lookup_cons, h]
      · have hb : (id == p.patientId) = false := by simp [h]
        simp [List.lookup_cons, hb, Ne.symm h]
    rw [hsing, Bool.or_comm]

/-- The observation-loop filter, re-expressed without the uuid map. -/
theorem retained_filter_eq (uuids : Nat → String) (data : ParsedData) :
    data.observations.filter
        (fun o => ((bundlePUuids uuids 0 data.patients).lookup o.patientId).isSome)
      = retainedObservations data := by
  unfold retainedObservations
  exact List.filter_congr fun o _ => lookup_bundlePUuids_isSome uuids data.patients o.patientId 0

theorem length_bundlePatientEntries (uuids : Nat → String) (ps : List PatientData) :
    ∀ k : Nat, (bundlePatientEntries uuids k ps).length = ps.length := by
  induction ps with
  | nil => intro k; rfl
  | cons p ps ih => intro k; simp [bundlePatientEntries, ih (k + 1)]

theorem length_bundleObservationEntries (uuids : Nat → String)
    (puuids : List (String × String)) (os : List ObservationData) :
    ∀ k : Nat, (bundleObservationEntries uuids puuids k os).length
      = (os.filter (fun o => (puuids.lookup o.patientId).isSome)).length := by
  induction os with
  | nil => intro k; rfl
  | cons o os ih =>
    intro k
    rcases hlk : puuids.lookup o.patientId with _ | pu
    · simp [bundleObservationEntries, hlk, List.filter_cons, ih k]
    · simp [bundleObservationEntries, hlk, List.filter_cons, ih (k + 1)]

theorem mem_bundlePatientEntries (uuids : Nat → String) (ps : List PatientData)
    (e : BundleEntry) : ∀ k : Nat, e ∈ bundlePatientEntries uuids k ps →
    ∃ p ∈ ps, ∃ u, e = patientEntry u p := by
  induction ps with
  | nil => intro k h; simp [bundlePatientEntries] at h
  | cons p ps ih =>
    intro k h
    rcases List.mem_cons.mp h with h | h
    · exact ⟨p, List.mem_cons_self p ps, uuids k, h⟩
    · rcases ih (k + 1) h with ⟨q, hq, u, he⟩
      exact ⟨q, List.mem_cons_of_mem p hq, u, he⟩

theorem mem_bundleObservationEntries (uuids : Nat → String)
    (puuids : List (String × String)) (os : List ObservationData)
    (e : BundleEntry) : ∀ k : Nat, e ∈ bundleObservationEntries uuids puuids k os →
    ∃ o ∈ os, (puuids.lookup o.patientId).isSome ∧ ∃ u pu, e = observationEntry u pu o := by
  induction os with
  | nil => intro k h; simp [bundleObservationEntries] at h
  | cons o os ih =>
    intro k h
    rcases hlk : puuids.lookup o.patientId with _ | pu
    · rw [bundleObservationEntries, hlk] at h
      rcases ih k h with ⟨o', ho', hs, u, pu', he⟩
      exact ⟨o', List.mem_cons_of_mem o ho', hs, u, pu', he⟩
    · rw [bundleObservationEntries, hlk] at h
      rcases List.mem_cons.mp h with h | h
      · exact ⟨o, List.mem_cons_self o os, by rw [hlk]; rfl, uuids k, pu, h⟩
      · rcases ih (k + 1) h with ⟨o', ho', hs, u, pu', he⟩
        exact ⟨o', List.mem_cons_of_mem o ho', hs, u, pu', he⟩

/-- C4: the built bundle has exactly one entry per patient plus one per
    observation whose owning patient identifier occurs among the patients;
    every entry is either some patient's entry or the entry of an observation
    whose owner is present, so an observation with an unresolvable owner is
    absent from the entry list. -/
theorem bundle_orphan_free (uuids : Nat → String) (data : ParsedData) :
    (createFHIRBundle uuids data).entry.length
      = data.patients.length + (retainedObservations data).length ∧
    ∀ e ∈ (createFHIRBundle uuids data).entry,
      (∃ p ∈ data.patients, ∃ u, e = patientEntry u p) ∨
      (∃ o ∈ data.observations,
        o.patientId ∈ data.patients.map PatientData.patientId ∧
        ∃ u pu, e = observationEntry u pu o) := by
  constructor
  · rw [createFHIRBundle_entry, List.length_append, length_bundlePatientEntries,
      length_bundleObservationEntries, retained_filter_eq]
  · intro e he
    rw [createFHIRBundle_entry] at he
    rcases List.mem_append.mp he with h | h
    · exact Or.inl (mem_bundlePatientEntries uuids data.patients e 0 h)
    · right
      rcases mem_bundleObservationEntries uuids _ data.observations e
          data.patients.length h with ⟨o, ho, hs, u, pu, he'⟩
      refine ⟨o, ho, ?_, u, pu, he'⟩
      rw [lookup_bundlePUuids_isSome] at hs
      rcases List.any_eq_true.mp hs with ⟨p, hp, hpe⟩
      have : p.patientId = o.patientId := of_decide_eq_true hpe
      exact this ▸ List.mem_map_of_mem PatientData.patientId hp

/-- C4 (witness): the sample data (2 patients, 3 observations, one of them
    orphaned) yields 4 entries, and the first patient's entry is accounted
    for by the disjunction. -/
theorem bundle_orphan_free_witness :
    (createFHIRBundle sampleUuids sampleParsedData).entry.length = 4 ∧
    ((∃ p ∈ sampleParsedData.patients, ∃ u,
        patientEntry "u0" samplePatient1 = patientEntry u p) ∨
     (∃ o ∈ sampleParsedData.observations,
        o.patientId ∈ sampleParsedData.patients.map PatientData.patientId ∧
        ∃ u pu, patientEntry "u0" samplePatient1 = observationEntry u pu o)) := by
  constructor
  · rw [(bundle_orphan_free sampleUuids sampleParsedData).1]
    rfl
  · exact (bundle_orphan_free sampleUuids sampleParsedData).2
      (patientEntry "u0" samplePatient1) (by decide)

theorem directives_bundlePatientEntries (uuids : Nat → String) (ps : List PatientData) :
    ∀ k : Nat, (bundlePatientEntries uuids k ps).map (fun e => e.request.ifNoneExist)
      = ps.map (fun p => "identifier=" ++ FHIR_IDENTIFIER_SYSTEM ++ "|" ++ p.patientId) := by
  induction ps with
  | nil => intro k; rfl
  | cons p ps ih =>
    intro k
    simp only [bundlePatientEntries, List.map_cons, ih (k + 1)]
    rfl

theorem directives_bundleObservationEntries (uuids : Nat → String)
    (puuids : List (String × String)) (os : List ObservationData) :
    ∀ k : Nat, (bundleObservationEntries uuids puuids k os).map (fun e => e.request.ifNoneExist)
      = (os.filter (fun o => (puuids.lookup o.patientId).isSome)).map
          (fun o => "identifier=" ++ FHIR_OBSERVATION_IDENTIFIER_SYSTEM ++ "|"
                      ++ generateObservationId o) := by
  induction os with
  | nil => intro k; rfl
  | cons o os ih =>
    intro k
    rcases hlk : puuids.lookup o.patientId with _ | pu
    · simp [bundleObservationEntries, hlk, List.filter_cons, ih k]
    · simp only [bundleObservationEntries, hlk, List.filter_cons, Option.isSome_some,
        if_pos rfl, ite_true, List.map_cons, ih (k + 1)]
      rfl

/-- The directive sequence of a built bundle in a uuid-free canonical form:
    the patients' create-if-absent keys in order, then those of the retained
    observations in order. -/
theorem directives_canonical (uuids : Nat → String) (data : ParsedData) :
    directives (createFHIRBundle uuids data)
      = data.patients.map (fun p => "identifier=" ++ FHIR_IDENTIFIER_SYSTEM ++ "|"
                                      ++ p.patientId)
        ++ (retainedObservations data).map
            (fun o => "identifier=" ++ FHIR_OBSERVATION_IDENTIFIER_SYSTEM ++ "|"
                        ++ generateObservationId o) := by
  unfold directives
  rw [createFHIRBundle_entry, List.map_append, directives_bundlePatientEntries,
    directives_bundleObservationEntries, retained_filter_eq]

/-- C5: running the bundle builder twice on the same parsed data, with
    arbitrary (in particular different) uuid supplies, yields bundles whose
    idempotency-directive sequences are identical. -/
theorem bundle_directives_deterministic (uuids₁ uuids₂ : Nat → String)
    (data : ParsedData) :
    directives (createFHIRBundle uuids₁ data)
      = directives (createFHIRBundle uuids₂ data) := by
  rw [directives_canonical, directives_canonical]

theorem kinds_bundlePatientEntries (uuids : Nat → String) (ps : List PatientData) :
    ∀ k : Nat, (bundlePatientEntries uuids k ps).map entryIsPatient
      = List.replicate ps.length true := by
  induction ps with
  | nil => intro k; rfl
  | cons p ps ih =>
    intro k
    simp only [bundlePatientEntries, List.map_cons, ih (k + 1), List.length_cons,
      List.replicate_succ]
    rfl

theorem kinds_bundleObservationEntries (uuids : Nat → String)
    (puuids : List (String × String)) (os : List ObservationData) :
    ∀ k : Nat, (bundleObservationEntries uuids puuids k os).map entryIsPatient
      = List.replicate (os.filter (fun o => (puuids.lookup o.patientId).isSome)).length
          false := by
  induction os with
  | nil => intro k; rfl
  | cons o os ih =>
    intro k
    rcases hlk : puuids.lookup o.patientId with _ | pu
    · simp [bundleObservationEntries, hlk, List.filter_cons, ih k]
    · simp only [bundleObservationEntries, hlk, List.filter_cons, Option.isSome_some,
        if_pos rfl, ite_true, List.map_cons, ih (k + 1), List.length_cons,
        List.replicate_succ]
      rfl

theorem patients_bundlePatientEntries (uuids : Nat → String) (ps : List PatientData) :
    ∀ k : Nat, (bundlePatientEntries uuids k ps).filterMap patientResourceOf
      = ps.map mapPatientToFHIR := by
  induction ps with
  | nil => intro k; rfl
  | cons p ps ih =>
    intro k
    simp only [bundlePatientEntries, List.filterMap_cons, ih (k + 1)]
    rfl

theorem patients_bundleObservationEntries (uuids : Nat → String)
    (puuids : List (String × String)) (os : List ObservationData) :
    ∀ k : Nat, (bundleObservationEntries uuids puuids k os).filterMap patientResourceOf
      = [] := by
  induction os with
  | nil => intro k; rfl
  | cons o os ih =>
    intro k
    rcases hlk : puuids.lookup o.patientId with _ | pu
    · simp [bundleObservationEntries, hlk, ih k]
    · simp only [bundleObservationEntries, hlk, List.filterMap_cons]
      exact ih (k + 1)

theorem obsIdentOf_observationEntry (u pu : String) (o : ObservationData) :
    obsIdentOf (observationEntry u pu o) = some (generateObservationId o) := by
  unfold obsIdentOf observationEntry mapObservationToFHIR
  rcases o.observationValue with s | s <;> rfl

theorem idents_bundlePatientEntries (uuids : Nat → String) (ps : List PatientData) :
    ∀ k : Nat, (bundlePatientEntries uuids k ps).filterMap obsIdentOf = [] := by
  induction ps with
  | nil => intro k; rfl
  | cons p ps ih =>
    intro k
    simp only [bundlePatientEntries, List.filterMap_cons]
    exact ih (k + 1)

theorem idents_bundleObservationEntries (uuids : Nat → String)
    (puuids : List (String × String)) (os : List ObservationData) :
    ∀ k : Nat, (bundleObservationEntries uuids puuids k os).filterMap obsIdentOf
      = (os.filter (fun o => (puuids.lookup o.patientId).isSome)).map
          generateObservationId := by
  induction os with
  | nil => intro k; rfl
  | cons o os ih =>
    intro k
    rcases hlk : puuids.lookup o.patientId with _ | pu
    · simp [bundleObservationEntries, hlk, List.filter_cons, ih k]
    · simp only [bundleObservationEntries, hlk, List.filter_cons, Option.isSome_some,
        if_pos rfl, ite_true, List.filterMap_cons, obsIdentOf_observationEntry,
        List.map_cons, ih (k + 1)]

/-- C8: in the built bundle, the entry-kind sequence is all patient entries
    followed by all observation entries; the patient resources read off the
    entry list are exactly the input patients mapped in input order; and the
    observation identifiers read off the entry list are exactly those of the
    retained observations in input order. -/
theorem bundle_ordering (uuids : Nat → String) (data : ParsedData) :
    (createFHIRBundle uuids data).entry.map entryIsPatient
      = List.replicate data.patients.length true
        ++ List.replicate (retainedObservations data).length false ∧
    (createFHIRBundle uuids data).entry.filterMap patientResourceOf
      = data.patients.map mapPatientToFHIR ∧
    (createFHIRBundle uuids data).entry.filterMap obsIdentOf
      = (retainedObservations data).map generateObservationId := by
  refine ⟨?_, ?_, ?_⟩
  · rw [createFHIRBundle_entry, List.map_append, kinds_bundlePatientEntries,
      kinds_bundleObservationEntries, retained_filter_eq]
  · rw [createFHIRBundle_entry, List.filterMap_append, patients_bundlePatientEntries,
      patients_bundleObservationEntries, List.append_nil]
  · rw [createFHIRBundle_entry, List.filterMap_append, idents_bundlePatientEntries,
      idents_bundleObservationEntries, retained_filter_eq, List.nil_append]

/-! ### First-seen registration of patients (shared by both parsers) -/

theorem nodup_foldl_regStep (cands : List PatientData) :
    ∀ ps : List PatientData, (ps.map PatientData.patientId).Nodup →
    ((cands.foldl regStep ps).map PatientData.patientId).Nodup := by
  induction cands with
  | nil => intro ps h; exact h
  | cons c cs ih =>
    intro ps h
    rw [List.foldl_cons]
    apply ih
    unfold regStep
    by_cases hc : ps.any (fun p => p.patientId = c.patientId) = true
    · rw [if_pos hc]; exact h
    · rw [if_neg hc, List.map_append]
      refine List.Nodup.append h (List.nodup_singleton _) ?_
      intro x hx hx'
      rcases List.mem_map.mp hx with ⟨p, hp, hpe⟩
      apply hc
      apply List.any_eq_true.mpr
      refine ⟨p, hp, decide_eq_true ?_⟩
      rw [hpe, List.mem_singleton.mp hx']

theorem mem_foldl_regStep (cands : List PatientData) :
    ∀ (ps : List PatientData) (id : String),
    id ∈ (cands.foldl regStep ps).map PatientData.patientId
      ↔ id ∈ ps.map PatientData.patientId ∨ id ∈ cands.map PatientData.patientId := by
  induction cands with
  | nil => intro ps id; simp
  | cons c cs ih =>
    intro ps id
    rw [List.foldl_cons, ih]
    unfold regStep
    by_cases hc : ps.any (fun p => p.patientId = c.patientId) = true
    · rw [if_pos hc]
      simp only [List.map_cons, List.mem_cons]
      constructor
      · rintro (h | h)
        · exact Or.inl h
        · exact Or.inr (Or.inr h)
      · rintro (h | h | h)
        · exact Or.inl h
        · subst h
          rcases List.any_eq_true.mp hc with ⟨p, hp, hpe⟩
          have hpc : p.patientId = c.patientId := of_decide_eq_true hpe
          exact Or.inl (hpc ▸ List.mem_map_of_mem PatientData.patientId hp)
        · exact Or.inr h
    · rw [if_neg hc]
      simp [List.mem_append, or_assoc]

theorem find_foldl_regStep (cands : List PatientData) :
    ∀ (ps : List PatientData) (q : PatientData), q ∈ cands.foldl regStep ps →
    q ∈ ps ∨ (q.patientId ∉ ps.map PatientData.patientId ∧
      cands.find? (fun c => c.patientId = q.patientId) = some q) := by
  induction cands with
  | nil => intro ps q h; exact Or.inl h
  | cons c cs ih =>
    intro ps q h
    rw [List.foldl_cons] at h
    unfold regStep at h
    by_cases hc : ps.any (fun p => p.patientId = c.patientId) = true
    · rw [if_pos hc] at h
      rcases ih ps q h with h' | ⟨hnm, hf⟩
      · exact Or.inl h'
      · right
        refine ⟨hnm, ?_⟩
        rw [List.find?_cons_of_neg]
        · exact hf
        · intro hcq
          apply hnm
          have hce : c.patientId = q.patientId := of_decide_eq_true hcq
          rcases List.any_eq_true.mp hc with ⟨p, hp, hpe⟩
          have hpc : p.patientId = c.patientId := of_decide_eq_true hpe
          exact (hpc.trans hce) ▸ List.mem_map_of_mem PatientData.patientId hp
    · rw [if_neg hc] at h
      have hcnot : c.patientId ∉ ps.map PatientData.patientId := by
        intro hm
        apply hc
        rcases List.mem_map.mp hm with ⟨p, hp, hpe⟩
        exact List.any_eq_true.mpr ⟨p, hp, decide_eq_true hpe⟩
      rcases ih (ps ++ [c]) q h with h' | ⟨hnm, hf⟩
      · rcases List.mem_append.mp h' with h'' | h''
        · exact Or.inl h''
        · have hqc : q = c := List.mem_singleton.mp h''
          subst hqc
          right
          refine ⟨hcnot, ?_⟩
          exact List.find?_cons_of_pos cs (decide_eq_true rfl)
      · right
        constructor
        · intro hm
          exact hnm (by rw [List.map_append]; exact List.mem_append_left _ hm)
        · have hne : ¬(decide (c.patientId = q.patientId) = true) := by
            intro hcq
            apply hnm
            have hce : c.patientId = q.patientId := of_decide_eq_true hcq
            rw [List.map_append]
            apply List.mem_append_right
            rw [← hce]
            simp
          rw [List.find?_cons_of_neg cs hne]
          exact hf

/-- Two lists of identifiers with the same members, the first without
    duplicates: the first's length is the second's distinct count. -/
theorem distinct_count_eq {l₁ l₂ : List String} (h₁ : l₁.Nodup)
    (h : ∀ id, id ∈ l₁ ↔ id ∈ l₂) : l₁.length = l₂.dedup.length := by
  have e : l₁.toFinset = l₂.toFinset := by
    apply Finset.ext
    intro a
    simp only [List.mem_toFinset]
    exact h a
  calc l₁.length = l₁.toFinset.card := (List.toFinset_card_of_nodup h₁).symm
    _ = l₂.toFinset.card := by rw [e]
    _ = l₂.dedup.length := List.card_toFinset l₂

theorem csv_foldl_patients (today : String) (records : List Csv.CSVRow) :
    ∀ (ps : List PatientData) (os : List ObservationData),
    (records.foldl (Csv.step today) (ps, os)).1
      = (records.map Csv.patientFromRow).foldl regStep ps := by
  induction records with
  | nil => intro ps os; rfl
  | cons r rs ih =>
    intro ps os
    rw [List.foldl_cons, List.map_cons, List.foldl_cons]
    exact ih _ _

theorem hl7_foldl_patients (nowMs : Nat) (nowTs : String) (msgs : List String) :
    ∀ (ps : List PatientData) (os : List ObservationData),
    (msgs.foldl (Hl7.processMessage nowMs nowTs) (ps, os)).1
      = (msgs.filterMap (Hl7.msgPatient nowMs)).foldl regStep ps := by
  induction msgs with
  | nil => intro ps os; rfl
  | cons m ms ih =>
    intro ps os
    rw [List.foldl_cons, List.filterMap_cons]
    rcases hf : (Hl7.parseHL7Message m).segments.find? (fun s => s.type = "PID")
        with _ | pid
    · have h1 : Hl7.processMessage nowMs nowTs (ps, os) m = (ps, os) := by
        unfold Hl7.processMessage
        simp only [hf]
      have h2 : Hl7.msgPatient nowMs m = none := by
        unfold Hl7.msgPatient
        rw [hf]
        rfl
      rw [h1, h2]
      exact ih ps os
    · have h2 : Hl7.msgPatient nowMs m = some (Hl7.extractPatientFromPID nowMs pid) := by
        unfold Hl7.msgPatient
        rw [hf]
        rfl
      have h1 : ∃ os', Hl7.processMessage nowMs nowTs (ps, os) m
          = (regStep ps (Hl7.extractPatientFromPID nowMs pid), os') := by
        unfold Hl7.processMessage
        simp only [hf]
        exact ⟨_, rfl⟩
      rcases h1 with ⟨os', he⟩
      rw [h2, he, List.foldl_cons]
      exact ih _ os'

/-- `parseCSV`'s patient list is the first-seen registration of the row
    candidates. -/
theorem parseCSV_patients_eq (today : String) (records : List Csv.CSVRow) :
    (Csv.parseCSV today records).patients
      = (Csv.candidatePatients records).foldl regStep [] :=
  csv_foldl_patients today records [] []

/-- `parseHL7v2`'s patient list is the first-seen registration of the message
    candidates. -/
theorem parseHL7v2_patients_eq (nowMs : Nat) (nowTs content : String) :
    (Hl7.parseHL7v2 nowMs nowTs content).patients
      = (Hl7.candidatePatients nowMs content).foldl regStep [] :=
  hl7_foldl_patients nowMs nowTs (Hl7.splitMessages content) [] []

/-- C3: for both parsers, the output patient identifiers are free of
    duplicates; an identifier is in the output iff it occurs in the input
    (a row's `patient_id`, resp. a message candidate's identifier), so the
    distinct counts agree; and every output patient is the first candidate
    carrying its identifier, so first-seen field values win. -/
theorem parser_dedup_first_seen (today : String) (records : List Csv.CSVRow)
    (nowMs : Nat) (nowTs content : String) :
    (((Csv.parseCSV today records).patients.map PatientData.patientId).Nodup ∧
     (∀ id, id ∈ (Csv.parseCSV today records).patients.map PatientData.patientId
         ↔ id ∈ records.map Csv.CSVRow.patient_id) ∧
     (Csv.parseCSV today records).patients.length
       = (records.map Csv.CSVRow.patient_id).dedup.length ∧
     (∀ p ∈ (Csv.parseCSV today records).patients,
        (Csv.candidatePatients records).find? (fun q => q.patientId = p.patientId)
          = some p)) ∧
    (((Hl7.parseHL7v2 nowMs nowTs content).patients.map PatientData.patientId).Nodup ∧
     (∀ id, id ∈ (Hl7.parseHL7v2 nowMs nowTs content).patients.map PatientData.patientId
         ↔ id ∈ (Hl7.candidatePatients nowMs content).map PatientData.patientId) ∧
     (Hl7.parseHL7v2 nowMs nowTs content).patients.length
       = ((Hl7.candidatePatients nowMs content).map PatientData.patientId).dedup.length ∧
     (∀ p ∈ (Hl7.parseHL7v2 nowMs nowTs content).patients,
        (Hl7.candidatePatients nowMs content).find?
            (fun q => q.patientId = p.patientId) = some p)) := by
  have hcand : (Csv.candidatePatients records).map PatientData.patientId
      = records.map Csv.CSVRow.patient_id := by
    unfold Csv.candidatePatients
    rw [List.map_map]
    rfl
  have hcsv := parseCSV_patients_eq today records
  have hhl7 := parseHL7v2_patients_eq nowMs nowTs content
  have csvNodup : ((Csv.parseCSV today records).patients.map PatientData.patientId).Nodup := by
    rw [hcsv]
    exact nodup_foldl_regStep _ [] (by simp)
  have csvMem : ∀ id,
      id ∈ (Csv.parseCSV today records).patients.map PatientData.patientId
        ↔ id ∈ records.map Csv.CSVRow.patient_id := by
    intro id
    rw [hcsv, mem_foldl_regStep, hcand]
    simp
  have hl7Nodup :
      ((Hl7.parseHL7v2 nowMs nowTs content).patients.map PatientData.patientId).Nodup := by
    rw [hhl7]
    exact nodup_foldl_regStep _ [] (by simp)
  have hl7Mem : ∀ id,
      id ∈ (Hl7.parseHL7v2 nowMs nowTs content).patients.map PatientData.patientId
        ↔ id ∈ (Hl7.candidatePatients nowMs content).map PatientData.patientId := by
    intro id
    rw [hhl7, mem_foldl_regStep]
    simp
  refine ⟨⟨csvNodup, csvMem, ?_, ?_⟩, hl7Nodup, hl7Mem, ?_, ?_⟩
  · have := distinct_count_eq csvNodup csvMem
    rw [List.length_map] at this
    exact this
  · intro p hp
    rw [hcsv] at hp
    rcases find_foldl_regStep _ [] p hp with h | ⟨_, hf⟩
    · simp at h
    · exact hf
  · have := distinct_count_eq hl7Nodup hl7Mem
    rw [List.length_map] at this
    exact this
  · intro p hp
    rw [hhl7] at hp
    rcases find_foldl_regStep _ [] p hp with h | ⟨_, hf⟩
    · simp at h
    · exact hf

/-- C3 (witness): two CSV rows and two HL7 messages that share one patient
    identifier each; the single output patient carries the first
    occurrence's fields. -/
theorem parser_dedup_first_seen_witness :
    (Csv.candidatePatients sampleRows).find?
        (fun q => q.patientId = (Csv.patientFromRow sampleRow1).patientId)
      = some (Csv.patientFromRow sampleRow1) ∧
    ("P001" ∈ (Csv.parseCSV "2024-01-01" sampleRows).patients.map PatientData.patientId) ∧
    (Hl7.parseHL7v2 5 "TS" sampleHl7Content).patients.length
      = ((Hl7.candidatePatients 5 sampleHl7Content).map PatientData.patientId).dedup.length := by
  have h := parser_dedup_first_seen "2024-01-01" sampleRows 5 "TS" sampleHl7Content
  refine ⟨h.1.2.2.2 (Csv.patientFromRow sampleRow1) (by decide), ?_, h.2.2.2.1⟩
  exact (h.1.2.1 "P001").mpr (by decide)

/-- C9: `parseHL7v2` is the message loop run on `splitMessages`, and a
    message without a `PID` segment is a no-op for that loop: deleting it
    from the message list leaves the parse result — the patients and
    observations contributed by every other message — unchanged, and no
    error is possible (the loop is total). -/
theorem hl7_pidless_message_skipped (nowMs : Nat) (nowTs : String)
    (pre post : List String) (m : String)
    (h : (Hl7.parseHL7Message m).segments.find? (fun s => s.type = "PID") = none) :
    Hl7.parseMessages nowMs nowTs (pre ++ m :: post)
      = Hl7.parseMessages nowMs nowTs (pre ++ post) ∧
    ∀ content, Hl7.parseHL7v2 nowMs nowTs content
      = Hl7.parseMessages nowMs nowTs (Hl7.splitMessages content) := by
  constructor
  · unfold Hl7.parseMessages
    rw [List.foldl_append, List.foldl_append, List.foldl_cons]
    have hskip : Hl7.processMessage nowMs nowTs
        (pre.foldl (Hl7.processMessage nowMs nowTs) ([], [])) m
        = pre.foldl (Hl7.processMessage nowMs nowTs) ([], []) := by
      unfold Hl7.processMessage
      simp only [h]
    rw [hskip]
  · intro content
    rfl

/-- C9 (witness): dropping the `PID`-less second message of a two-message
    input leaves the parse result unchanged. -/
theorem hl7_pidless_message_skipped_witness :
    Hl7.parseMessages 5 "TS"
        (["MSH|a\nPID|1||P1^^M||Doe^John||19900115|M"] ++ "MSH|b\nOBX|9" :: [])
      = Hl7.parseMessages 5 "TS" (["MSH|a\nPID|1||P1^^M||Doe^John||19900115|M"] ++ []) ∧
    Hl7.parseHL7v2 5 "TS" sampleHl7Content
      = Hl7.parseMessages 5 "TS" (Hl7.splitMessages sampleHl7Content) := by
  have h := hl7_pidless_message_skipped 5 "TS"
    ["MSH|a\nPID|1||P1^^M||Doe^John||19900115|M"] [] "MSH|b\nOBX|9" (by rfl)
  exact ⟨h.1, h.2 sampleHl7Content⟩

/-! ### Observation values: numbers vs strings -/

theorem csv_foldl_observations (today : String) (records : List Csv.CSVRow) :
    ∀ (ps : List PatientData) (os : List ObservationData),
    (records.foldl (Csv.step today) (ps, os)).2
      = os ++ (records.filter
            (fun r => truthy r.observation_type && truthy r.observation_value)).map
          (Csv.observationFromRow today) := by
  induction records with
  | nil => intro ps os; simp
  | cons r rs ih =>
    intro ps os
    rw [List.foldl_cons, List.filter_cons]
    by_cases hc : (truthy r.observation_type && truthy r.observation_value) = true
    · rw [if_pos hc]
      have hstep : Csv.step today (ps, os) r
          = ((Csv.step today (ps, os) r).1, os ++ [Csv.observationFromRow today r]) := by
        unfold Csv.step
        rw [if_pos hc]
      rw [hstep, ih]
      simp
    · rw [if_neg hc]
      have hstep : Csv.step today (ps, os) r = ((Csv.step today (ps, os) r).1, os) := by
        unfold Csv.step
        rw [if_neg hc]
      rw [hstep, ih]

theorem hl7_foldl_observations (nowMs : Nat) (nowTs : String) (msgs : List String) :
    ∀ (ps : List PatientData) (os : List ObservationData),
    (msgs.foldl (Hl7.processMessage nowMs nowTs) (ps, os)).2
      = os ++ (msgs.map (Hl7.msgObservations nowMs nowTs)).flatten := by
  induction msgs with
  | nil => intro ps os; simp
  | cons m ms ih =>
    intro ps os
    rw [List.foldl_cons, List.map_cons, List.flatten_cons]
    rcases hf : (Hl7.parseHL7Message m).segments.find? (fun s => s.type = "PID")
        with _ | pid
    · have h1 : Hl7.processMessage nowMs nowTs (ps, os) m = (ps, os) := by
        unfold Hl7.processMessage
        simp only [hf]
      have h2 : Hl7.msgObservations nowMs nowTs m = [] := by
        unfold Hl7.msgObservations
        simp only [hf]
      rw [h1, h2, ih]
      simp
    · have h2 : Hl7.msgObservations nowMs nowTs m
          = ((Hl7.parseHL7Message m).segments.filter (fun s => s.type = "OBX")).map
              (Hl7.extractObservationFromOBX
                (Hl7.extractPatientFromPID nowMs pid).patientId
                (jsOr ((((Hl7.parseHL7Message m).segments.find?
                    (fun s => s.type = "MSH")).map (fun mh => mh.fields.getD 5 "")).getD "")
                  nowTs)) := by
        unfold Hl7.msgObservations
        simp only [hf]
      have h1 : Hl7.processMessage nowMs nowTs (ps, os) m
          = ((Hl7.processMessage nowMs nowTs (ps, os) m).1,
             os ++ Hl7.msgObservations nowMs nowTs m) := by
        unfold Hl7.processMessage
        simp only [hf, h2]
      rw [h1, ih]
      simp

/-- C6: the mapped Observation carries `valueQuantity` exactly when the
    intermediate value is a number and `valueString` exactly when it is a
    string (so never both); both parsers store a value as a number exactly
    when the raw value string passes the JavaScript numeric test
    (`!isNaN(Number(raw))`); and every parsed observation arises from the
    respective row/segment extraction. -/
theorem observation_value_typing (today : String) (records : List Csv.CSVRow)
    (nowMs : Nat) (nowTs content : String) (observation : ObservationData)
    (ref : String) :
    ((mapObservationToFHIR observation ref).valueQuantity.isSome
        = observation.observationValue.isNum ∧
     (mapObservationToFHIR observation ref).valueString.isSome
        = !observation.observationValue.isNum) ∧
    (∀ row : Csv.CSVRow,
       (Csv.observationFromRow today row).observationValue
         = (if jsIsNumeric (row.observation_value.getD "")
            then ObsValue.num (row.observation_value.getD "")
            else ObsValue.str (row.observation_value.getD ""))) ∧
    (∀ (obx : Hl7.HL7Segment) (pid ts : String),
       (Hl7.extractObservationFromOBX pid ts obx).observationValue
         = (if jsIsNumeric (obx.fields.getD 4 "")
            then ObsValue.num (obx.fields.getD 4 "")
            else ObsValue.str (obx.fields.getD 4 ""))) ∧
    (∀ o ∈ (Csv.parseCSV today records).observations,
       ∃ row ∈ records, o = Csv.observationFromRow today row) ∧
    (∀ o ∈ (Hl7.parseHL7v2 nowMs nowTs content).observations,
       ∃ m ∈ Hl7.splitMessages content, o ∈ Hl7.msgObservations nowMs nowTs m) := by
  refine ⟨?_, fun row => rfl, fun obx pid ts => rfl, ?_, ?_⟩
  · rcases ho : observation.observationValue with s | s
    · constructor
      · unfold mapObservationToFHIR
        rw [ho]
        rfl
      · unfold mapObservationToFHIR
        rw [ho]
        rfl
    · constructor
      · unfold mapObservationToFHIR
        rw [ho]
        rfl
      · unfold mapObservationToFHIR
        rw [ho]
        rfl
  · intro o hmem
    have h : (Csv.parseCSV today records).observations
        = (records.filter
            (fun r => truthy r.observation_type && truthy r.observation_value)).map
          (Csv.observationFromRow today) :=
      csv_foldl_observations today records [] []
    rw [h] at hmem
    rcases List.mem_map.mp hmem with ⟨row, hrow, he⟩
    exact ⟨row, List.mem_of_mem_filter hrow, he.symm⟩
  · intro o hmem
    have h : (Hl7.parseHL7v2 nowMs nowTs content).observations
        = ((Hl7.splitMessages content).map (Hl7.msgObservations nowMs nowTs)).flatten :=
      hl7_foldl_observations nowMs nowTs (Hl7.splitMessages content) [] []
    rw [h] at hmem
    rcases List.mem_flatten.mp hmem with ⟨l, hl, ho⟩
    rcases List.mem_map.mp hl with ⟨m, hm, he⟩
    exact ⟨m, hm, he ▸ ho⟩

/-- C6 (witness): the sample CSV rows and HL7 content, with the mapped
    observation of the numeric sample value. -/
theorem observation_value_typing_witness :
    ((mapObservationToFHIR (sampleObservation "P001" "72") "urn:uuid:u0").valueQuantity.isSome
        = (sampleObservation "P001" "72").observationValue.isNum) ∧
    (∃ row ∈ sampleRows,
      Csv.observationFromRow "2024-01-01" sampleRow1
        = Csv.observationFromRow "2024-01-01" row) ∧
    (∃ m ∈ Hl7.splitMessages sampleHl7ObsContent,
      Hl7.extractObservationFromOBX "P1" "20240115"
          ⟨"OBX", ["1", "NM", "8867-4^HR", "", "72", "bpm"]⟩
        ∈ Hl7.msgObservations 5 "TS" m) := by
  have h := observation_value_typing "2024-01-01" sampleRows 5 "TS" sampleHl7ObsContent
    (sampleObservation "P001" "72") "urn:uuid:u0"
  refine ⟨h.1.1, ?_, ?_⟩
  · exact h.2.2.2.1 (Csv.observationFromRow "2024-01-01" sampleRow1) (by decide)
  · exact h.2.2.2.2 (Hl7.extractObservationFromOBX "P1" "20240115"
      ⟨"OBX", ["1", "NM", "8867-4^HR", "", "72", "bpm"]⟩) (by decide)

/-! ### Sex normalization -/

theorem charOfNat_toNat {n : Nat} (h : n.isValidChar) : (Char.ofNat n).toNat = n := by
  unfold Char.ofNat
  rw [dif_pos h]
  unfold Char.ofNatAux
  simp [Char.toNat, UInt32.toNat, BitVec.toNat_ofNatLt]

theorem charToLower_charToUpper (c : Char) :
    charToLower (charToUpper c) = charToLower c := by
  unfold charToUpper
  by_cases h : 'a' ≤ c ∧ c ≤ 'z'
  · rw [if_pos h]
    have h1 : 97 ≤ c.toNat := h.1
    have h2 : c.toNat ≤ 122 := h.2
    have hval : (c.toNat - 32).isValidChar := Or.inl (by omega)
    have hrt : (Char.ofNat (c.toNat - 32)).toNat = c.toNat - 32 := charOfNat_toNat hval
    unfold charToLower
    have le1 : 'A' ≤ Char.ofNat (c.toNat - 32) := by
      show (65 : Nat) ≤ (Char.ofNat (c.toNat - 32)).toNat
      omega
    have le2 : Char.ofNat (c.toNat - 32) ≤ 'Z' := by
      show (Char.ofNat (c.toNat - 32)).toNat ≤ 90
      omega
    have hnot : ¬('A' ≤ c ∧ c ≤ 'Z') := by
      intro hc
      have h3 : c.toNat ≤ 90 := hc.2
      omega
    rw [if_pos ⟨le1, le2⟩, if_neg hnot, hrt]
    have he : c.toNat - 32 + 32 = c.toNat := by omega
    rw [he, Char.ofNat_toNat]
  · rw [if_neg h]

theorem charToUpper_charToLower (c : Char) :
    charToUpper (charToLower c) = charToUpper c := by
  unfold charToLower
  by_cases h : 'A' ≤ c ∧ c ≤ 'Z'
  · rw [if_pos h]
    have h1 : 65 ≤ c.toNat := h.1
    have h2 : c.toNat ≤ 90 := h.2
    have hval : (c.toNat + 32).isValidChar := Or.inl (by omega)
    have hrt : (Char.ofNat (c.toNat + 32)).toNat = c.toNat + 32 := charOfNat_toNat hval
    unfold charToUpper
    have le1 : 'a' ≤ Char.ofNat (c.toNat + 32) := by
      show (97 : Nat) ≤ (Char.ofNat (c.toNat + 32)).toNat
      omega
    have le2 : Char.ofNat (c.toNat + 32) ≤ 'z' := by
      show (Char.ofNat (c.toNat + 32)).toNat ≤ 122
      omega
    have hnot : ¬('a' ≤ c ∧ c ≤ 'z') := by
      intro hc
      have h3 : 97 ≤ c.toNat := hc.1
      omega
    rw [if_pos ⟨le1, le2⟩, if_neg hnot, hrt]
    have he : c.toNat + 32 - 32 = c.toNat := by omega
    rw [he, Char.ofNat_toNat]
  · rw [if_neg h]

theorem charToLower_charToLower (c : Char) :
    charToLower (charToLower c) = charToLower c := by
  by_cases h : 'A' ≤ c ∧ c ≤ 'Z'
  · have h1 : 65 ≤ c.toNat := h.1
    have h2 : c.toNat ≤ 90 := h.2
    have hval : (c.toNat + 32).isValidChar := Or.inl (by omega)
    have hrt : (Char.ofNat (c.toNat + 32)).toNat = c.toNat + 32 := charOfNat_toNat hval
    have e1 : charToLower c = Char.ofNat (c.toNat + 32) := by
      unfold charToLower
      rw [if_pos h]
    have hcond : ¬('A' ≤ Char.ofNat (c.toNat + 32) ∧ Char.ofNat (c.toNat + 32) ≤ 'Z') := by
      intro hc
      have h3 : (Char.ofNat (c.toNat + 32)).toNat ≤ 90 := hc.2
      omega
    rw [e1]
    unfold charToLower
    rw [if_neg hcond]
  · have e1 : charToLower c = c := by
      unfold charToLower
      rw [if_neg h]
    rw [e1]
    exact e1

theorem isWs_false_of_ge {c : Char} (h : 65 ≤ c.toNat) : isWs c = false := by
  unfold isWs
  apply decide_eq_false
  rintro (h' | h' | h' | h')
  all_goals
    have hTn := congrArg Char.toNat h'
    simp at hTn
    omega

theorem isWs_charToLower (c : Char) : isWs (charToLower c) = isWs c := by
  unfold charToLower
  by_cases h : 'A' ≤ c ∧ c ≤ 'Z'
  · rw [if_pos h]
    have h1 : 65 ≤ c.toNat := h.1
    have h2 : c.toNat ≤ 90 := h.2
    have hval : (c.toNat + 32).isValidChar := Or.inl (by omega)
    have hrt : (Char.ofNat (c.toNat + 32)).toNat = c.toNat + 32 := charOfNat_toNat hval
    rw [isWs_false_of_ge (by omega), isWs_false_of_ge h1]
  · rw [if_neg h]

theorem isWs_charToUpper (c : Char) : isWs (charToUpper c) = isWs c := by
  unfold charToUpper
  by_cases h : 'a' ≤ c ∧ c ≤ 'z'
  · rw [if_pos h]
    have h1 : 97 ≤ c.toNat := h.1
    have h2 : c.toNat ≤ 122 := h.2
    have hval : (c.toNat - 32).isValidChar := Or.inl (by omega)
    have hrt : (Char.ofNat (c.toNat - 32)).toNat = c.toNat - 32 := charOfNat_toNat hval
    rw [isWs_false_of_ge (by omega), isWs_false_of_ge (by omega)]
  · rw [if_neg h]

theorem trim_map (f : Char → Char) (hw : ∀ c, isWs (f c) = isWs c) (l : List Char) :
    trimChars (l.map f) = (trimChars l).map f := by
  have hcomp : isWs ∘ f = isWs := funext hw
  unfold trimChars
  rw [List.dropWhile_map, hcomp, ← List.map_reverse, List.dropWhile_map, hcomp,
    ← List.map_reverse]

theorem map_upper_eq_iff_map_lower (l w : List Char) :
    l.map charToUpper = w.map charToUpper ↔ l.map charToLower = w.map charToLower := by
  constructor
  · intro h
    have h2 := congrArg (List.map charToLower) h
    rw [List.map_map, List.map_map] at h2
    have el : l.map (charToLower ∘ charToUpper) = l.map charToLower :=
      List.map_congr_left fun a _ => charToLower_charToUpper a
    have ew : w.map (charToLower ∘ charToUpper) = w.map charToLower :=
      List.map_congr_left fun a _ => charToLower_charToUpper a
    rw [el, ew] at h2
    exact h2
  · intro h
    have h2 := congrArg (List.map charToUpper) h
    rw [List.map_map, List.map_map] at h2
    have el : l.map (charToUpper ∘ charToLower) = l.map charToUpper :=
      List.map_congr_left fun a _ => charToUpper_charToLower a
    have ew : w.map (charToUpper ∘ charToLower) = w.map charToUpper :=
      List.map_congr_left fun a _ => charToUpper_charToLower a
    rw [el, ew] at h2
    exact h2

theorem csvNG_congr {a b : String} (h : jsTrim (jsToLower a) = jsTrim (jsToLower b)) :
    Csv.normalizeGender a = Csv.normalizeGender b := by
  unfold Csv.normalizeGender
  rw [h]

/-- The two `normalizeGender` implementations (lower-casing in the CSV
    parser, upper-casing in the HL7v2 parser) agree on every string. -/
theorem csv_hl7_normalizeGender (s : String) :
    Csv.normalizeGender s = Hl7.normalizeGender s := by
  have hkl : (jsTrim (jsToLower s)).data = (trimChars s.data).map charToLower := by
    show trimChars (s.data.map charToLower) = _
    exact trim_map charToLower isWs_charToLower s.data
  have hku : (jsTrim (jsToUpper s)).data = (trimChars s.data).map charToUpper := by
    show trimChars (s.data.map charToUpper) = _
    exact trim_map charToUpper isWs_charToUpper s.data
  have key : ∀ w W : String,
      W.data = w.data.map charToUpper → w.data.map charToLower = w.data →
      ((jsTrim (jsToLower s) = w) ↔ (jsTrim (jsToUpper s) = W)) := by
    intro w W hW hw
    constructor
    · intro h
      apply String.ext
      rw [hku, hW]
      apply (map_upper_eq_iff_map_lower _ _).mpr
      rw [hw, ← hkl]
      exact congrArg String.data h
    · intro h
      apply String.ext
      rw [hkl, ← hw]
      apply (map_upper_eq_iff_map_lower _ _).mp
      rw [← hW, ← hku]
      exact congrArg String.data h
  have emale := key "male" "MALE" (by decide) (by decide)
  have em := key "m" "M" (by decide) (by decide)
  have efemale := key "female" "FEMALE" (by decide) (by decide)
  have ef := key "f" "F" (by decide) (by decide)
  have eother := key "other" "OTHER" (by decide) (by decide)
  have eo := key "o" "O" (by decide) (by decide)
  simp only [Csv.normalizeGender, Hl7.normalizeGender]
  refine if_congr ?_ rfl (if_congr ?_ rfl (if_congr ?_ rfl rfl))
  · constructor
    · rintro (h | h)
      · exact Or.inr (emale.mp h)
      · exact Or.inl (em.mp h)
    · rintro (h | h)
      · exact Or.inr (em.mpr h)
      · exact Or.inl (emale.mpr h)
  · constructor
    · rintro (h | h)
      · exact Or.inr (efemale.mp h)
      · exact Or.inl (ef.mp h)
    · rintro (h | h)
      · exact Or.inr (ef.mpr h)
      · exact Or.inl (efemale.mpr h)
  · constructor
    · rintro (h | h)
      · exact Or.inr (eother.mp h)
      · exact Or.inl (eo.mp h)
    · rintro (h | h)
      · exact Or.inr (eo.mpr h)
      · exact Or.inl (eother.mpr h)

/-- C7: sex normalization is total (one of the four categories always comes
    out), both parsers' implementations agree on every string, the result is
    invariant under changing the input's case, the keyword families map as
    specified, and every other string maps to `unknown`. -/
theorem gender_normalization_total (s : String) :
    (Csv.normalizeGender s = .male ∨ Csv.normalizeGender s = .female ∨
     Csv.normalizeGender s = .other ∨ Csv.normalizeGender s = .unknown) ∧
    Csv.normalizeGender s = Hl7.normalizeGender s ∧
    Csv.normalizeGender (jsToUpper s) = Csv.normalizeGender s ∧
    Csv.normalizeGender (jsToLower s) = Csv.normalizeGender s ∧
    ((jsTrim (jsToLower s) = "male" ∨ jsTrim (jsToLower s) = "m") →
      Csv.normalizeGender s = .male) ∧
    ((jsTrim (jsToLower s) = "female" ∨ jsTrim (jsToLower s) = "f") →
      Csv.normalizeGender s = .female) ∧
    ((jsTrim (jsToLower s) = "other" ∨ jsTrim (jsToLower s) = "o") →
      Csv.normalizeGender s = .other) ∧
    (jsTrim (jsToLower s) ∉ (["male", "m", "female", "f", "other", "o"] : List String) →
      Csv.normalizeGender s = .unknown) := by
  refine ⟨?_, csv_hl7_normalizeGender s, ?_, ?_, ?_, ?_, ?_, ?_⟩
  · simp only [Csv.normalizeGender]
    split_ifs <;> simp
  · apply csvNG_congr
    apply String.ext
    show trimChars ((s.data.map charToUpper).map charToLower) = trimChars (s.data.map charToLower)
    rw [List.map_map]
    congr 1
    exact List.map_congr_left fun a _ => charToLower_charToUpper a
  · apply csvNG_congr
    apply String.ext
    show trimChars ((s.data.map charToLower).map charToLower) = trimChars (s.data.map charToLower)
    rw [List.map_map]
    congr 1
    exact List.map_congr_left fun a _ => charToLower_charToLower a
  · intro h
    simp only [Csv.normalizeGender]
    rw [if_pos h]
  · intro h
    have hne : ¬(jsTrim (jsToLower s) = "male" ∨ jsTrim (jsToLower s) = "m") := by
      rintro (hc | hc) <;> rcases h with h | h <;> rw [h] at hc <;> simp at hc
    simp only [Csv.normalizeGender]
    rw [if_neg hne, if_pos h]
  · intro h
    have hne1 : ¬(jsTrim (jsToLower s) = "male" ∨ jsTrim (jsToLower s) = "m") := by
      rintro (hc | hc) <;> rcases h with h | h <;> rw [h] at hc <;> simp at hc
    have hne2 : ¬(jsTrim (jsToLower s) = "female" ∨ jsTrim (jsToLower s) = "f") := by
      rintro (hc | hc) <;> rcases h with h | h <;> rw [h] at hc <;> simp at hc
    simp only [Csv.normalizeGender]
    rw [if_neg hne1, if_neg hne2, if_pos h]
  · intro h
    simp only [List.mem_cons, List.not_mem_nil, or_false, not_or] at h
    obtain ⟨h1, h2, h3, h4, h5, h6⟩ := h
    simp only [Csv.normalizeGender]
    rw [if_neg (by tauto), if_neg (by tauto), if_neg (by tauto)]

/-- C7 (witness): the mixed-case input `"MaLe "` normalizes to `male` in both
    parsers, and `"x"` to `unknown`. -/
theorem gender_normalization_total_witness :
    Csv.normalizeGender "MaLe " = .male ∧
    Csv.normalizeGender "MaLe " = Hl7.normalizeGender "MaLe " ∧
    Csv.normalizeGender "x" = .unknown := by
  have h := gender_normalization_total "MaLe "
  have h2 := gender_normalization_total "x"
  exact ⟨h.2.2.2.2.1 (Or.inl (by decide)), h.2.1,
    h2.2.2.2.2.2.2.2 (by decide)⟩

end FhirPipeline

